import Mathlib

/-!
Shallow embedding of TraceDroid's heuristic source-pattern scanner
(`tracedroid/heuristic_detection.py`): string primitives, linearized
regular-expression matchers, representative rules
(`UnsafeStartActivityRule`, `StrictPeertubeChannelIdParsingRule`,
`UnsafeArrayIndexAccessRule`), the scanner engine (`CodeScanner`),
the context extractor (`_get_context_lines`) and the reporter
(`report_issues`), together with theorems settling the spec claims.
-/

/-- Python's whitespace class `\s` (also the class stripped by `str.strip()`). -/
def isPySpace (c : Char) : Bool :=
  c = ' ' || c = '\t' || c = '\n' || c = '\r' || c = '\x0b' || c = '\x0c'

/-- Python's word-character class `\w` on ASCII text. -/
def isWordChar (c : Char) : Bool :=
  c.isAlphanum || c = '_'

/-- Python `str.strip()`. -/
def pyStrip (s : String) : String :=
  String.mk (((s.data.dropWhile isPySpace).reverse.dropWhile isPySpace).reverse)

/-- Python `str.rstrip()`. -/
def pyRstrip (s : String) : String :=
  String.mk ((s.data.reverse.dropWhile isPySpace).reverse)

/-- Python substring containment `sub in s`. -/
def strContains (s sub : String) : Bool :=
  s.data.tails.any (fun t => sub.data.isPrefixOf t)

/-- Python `s.startswith(t)`. -/
def pyStartsWith (s t : String) : Bool :=
  t.data.isPrefixOf s.data

/-- Python `s.endswith(t)`. -/
def pyEndsWith (s t : String) : Bool :=
  t.data.isSuffixOf s.data

/-- Python `s.lower()` on ASCII text. -/
def pyLower (s : String) : String :=
  String.mk (s.data.map Char.toLower)

/-- Python `s.count(c)` for a single-character needle. -/
def pyCountChar (s : String) (c : Char) : Nat :=
  s.data.count c

/-- One token of a linearized regular expression: a literal run, `\s*`,
`\s+`, or a trailing `.*lit` (where `.` does not match a newline). -/
inductive RTok where
  | lit (s : String)
  | ws0
  | ws1
  | dotStarLit (s : String)
deriving Repr, DecidableEq

/-- Character comparison, optionally case-insensitive (`re.IGNORECASE`). -/
def chEq (ci : Bool) (a b : Char) : Bool :=
  if ci then a.toLower = b.toLower else a = b

/-- Match a literal at the head of `l`, returning the remainder on success. -/
def matchLit (ci : Bool) : List Char → List Char → Option (List Char)
  | [], l => some l
  | _ :: _, [] => none
  | p :: ps, c :: cs => if chEq ci p c then matchLit ci ps cs else none

/-- Match a token list at the current position.  A `\s*`/`\s+` is always
followed (in the patterns below) by a literal starting with a non-space
character, so greedy whitespace consumption is exact. -/
def matchToksAt (ci : Bool) : List RTok → List Char → Bool
  | [], _ => true
  | RTok.lit s :: ts, l =>
    match matchLit ci s.data l with
    | some r => matchToksAt ci ts r
    | none => false
  | RTok.ws0 :: ts, l => matchToksAt ci ts (l.dropWhile isPySpace)
  | RTok.ws1 :: ts, l =>
    match l with
    | c :: _ => isPySpace c && matchToksAt ci ts (l.dropWhile isPySpace)
    | [] => false
  | RTok.dotStarLit s :: _, l =>
    (l.takeWhile (fun c => c ≠ '\n')).tails.any (fun t => (matchLit ci s.data t).isSome)

/-- `re.search` over a disjunction of linearized patterns. -/
def searchToks (ci : Bool) (pats : List (List RTok)) (s : List Char) : Bool :=
  s.tails.any (fun t => pats.any (fun p => matchToksAt ci p t))

/-- One alternation branch of `(startActivity|startActivityForResult)\s*\(`:
on success returns the matched text (`group()`). -/
def branchStartActivity (w : String) (l : List Char) : Option (List Char) :=
  if w.data.isPrefixOf l then
    let r := l.drop w.data.length
    let sp := r.takeWhile isPySpace
    match r.drop sp.length with
    | '(' :: _ => some (w.data ++ sp ++ ['('])
    | _ => none
  else none

/-- `START_ACTIVITY_PATTERN.search(line)`, returning `group()` of the
leftmost match (alternatives tried in source order). -/
def startActivityGroup (l : List Char) : Option String :=
  l.tails.findSome? (fun t =>
    match branchStartActivity "startActivity" t with
    | some m => some (String.mk m)
    | none =>
      match branchStartActivity "startActivityForResult" t with
      | some m => some (String.mk m)
      | none => none)

/-- Attempt of `ARRAY_ACCESS_PATTERN = (\w+)\s*\[\s*(\w+)\s*\]` at one
position; returns `(group(1), group(2))`. -/
def arrayAccessAt (l : List Char) : Option (List Char × List Char) :=
  let w := l.takeWhile isWordChar
  if w.isEmpty then none else
  match (l.drop w.length).dropWhile isPySpace with
  | '[' :: r2 =>
    let r3 := r2.dropWhile isPySpace
    let x := r3.takeWhile isWordChar
    if x.isEmpty then none else
    match (r3.drop x.length).dropWhile isPySpace with
    | ']' :: _ => some (w, x)
    | _ => none
  | _ => none

/-- `ARRAY_ACCESS_PATTERN.search(line)` (leftmost match). -/
def arrayAccessSearch (l : List Char) : Option (List Char × List Char) :=
  l.tails.findSome? arrayAccessAt

/-- One method alternative of `STRING_ACCESS_PATTERN`. -/
def stringAccessBranch (m : String) (w : List Char) (r : List Char) :
    Option (List Char × String × List Char) :=
  match matchLit false m.data r with
  | some r1 =>
    match r1.dropWhile isPySpace with
    | '(' :: r3 =>
      let r4 := r3.dropWhile isPySpace
      let x := r4.takeWhile isWordChar
      if x.isEmpty then none else some (w, m, x)
    | _ => none
  | none => none

/-- Attempt of `STRING_ACCESS_PATTERN = (\w+)\.(charAt|substring|setSpan)\s*\(\s*(\w+)\s*`
at one position. -/
def stringAccessAt (l : List Char) : Option (List Char × String × List Char) :=
  let w := l.takeWhile isWordChar
  if w.isEmpty then none else
  match l.drop w.length with
  | '.' :: r =>
    match stringAccessBranch "charAt" w r with
    | some g => some g
    | none =>
      match stringAccessBranch "substring" w r with
      | some g => some g
      | none => stringAccessBranch "setSpan" w r
  | _ => none

/-- `STRING_ACCESS_PATTERN.search(line)` (leftmost match). -/
def stringAccessSearch (l : List Char) : Option (List Char × String × List Char) :=
  l.tails.findSome? stringAccessAt

/-- The payload every rule yields per occurrence:
`{line_num, code, detail, severity}`. -/
structure IssueDetails where
  line_num : Int
  code : String
  detail : String
  severity : String
deriving Repr, DecidableEq

/-- The `Rule` interface: a name, fixed `issue_type` and `suggestion`,
and `analyze_file(file_path, lines)` producing a finite list of payloads. -/
structure Rule where
  name : String
  issue_type : String
  suggestion : String
  analyze_file : String → List String → List IssueDetails

/-- The per-occurrence yield step of `UnsafeStartActivityRule.analyze_file`
(the `startActivity` check at the end of each loop iteration), evaluated
with the post-update try-block stack and catch flag. -/
def usaYield (i : Nat) (line : String) (stack : List Nat) (caught : Bool) :
    List IssueDetails :=
  match startActivityGroup line.data with
  | none => []
  | some g =>
    let is_action_view := strContains line "Intent.ACTION_VIEW"
    if stack.isEmpty then
      let sev := if is_action_view then "HIGH" else "MEDIUM"
      [{ line_num := (i : Int) + 1, code := pyStrip line,
         detail := "Unsafe " ++ sev ++ " risk call found: `" ++ pyStrip g ++
           "`. No exception handling detected.",
         severity := sev }]
    else if !caught then
      let sev := if is_action_view then "MEDIUM" else "LOW"
      [{ line_num := (i : Int) + 1, code := pyStrip line,
         detail := "Unsafe " ++ sev ++ " risk call found: `" ++ pyStrip g ++
           "`. Try block exists but no ActivityNotFoundException handling detected.",
         severity := sev }]
    else []

/-- The scanning loop of `UnsafeStartActivityRule.analyze_file`: `i` is the
0-based index of the head line, `stack` the try-block stack (LIFO; only the
pushed line numbers' count matters to the source) and `caught` the
`catch_activity_not_found` flag. -/
def usaGo : List String → Nat → List Nat → Bool → List IssueDetails
  | [], _, _, _ => []
  | line :: rest, i, stack, caught =>
    let stripped := pyStrip line
    if stripped = "" || pyStartsWith stripped "//" then
      usaGo rest (i + 1) stack caught
    else
      let entersTry := strContains stripped "try " || pyStartsWith stripped "try \x7b" ||
        pyEndsWith stripped " try"
      let stack1 := if entersTry then (i + 1) :: stack else stack
      let caught1 := if entersTry then false else caught
      let caught2 :=
        if strContains stripped "catch" && strContains stripped "ActivityNotFoundException"
        then true else caught1
      let popped := pyStartsWith stripped "\x7d" && !stack1.isEmpty
      let stack2 := if popped then stack1.tail else stack1
      let caught3 := if popped && stack2.isEmpty then false else caught2
      usaYield i line stack2 caught3 ++ usaGo rest (i + 1) stack2 caught3

/-- `UnsafeStartActivityRule.analyze_file` (the file path is unused). -/
def unsafeStartActivityAnalyze (_fp : String) (lines : List String) : List IssueDetails :=
  usaGo lines 0 [] false

/-- `UnsafeStartActivityRule`. -/
def UnsafeStartActivityRule : Rule :=
  { name := "UnsafeStartActivityRule",
    issue_type := "Unsafe startActivity Call Without Exception Handling",
    suggestion := "The startActivity() call can throw an ActivityNotFoundException if no app can handle the Intent (e.g., no browser for ACTION_VIEW). Wrap it in a try-catch block with ActivityNotFoundException handling.",
    analyze_file := unsafeStartActivityAnalyze }

/-- `FIXID_SIGNATURE_PATTERN = fixId\s*\(\s*(@Nonnull\s*)?final\s*String\s+id\s*\)`,
with the optional group expanded into two branches. -/
def fixIdPats : List (List RTok) :=
  [[RTok.lit "fixId", RTok.ws0, RTok.lit "(", RTok.ws0, RTok.lit "@Nonnull", RTok.ws0,
    RTok.lit "final", RTok.ws0, RTok.lit "String", RTok.ws1, RTok.lit "id", RTok.ws0,
    RTok.lit ")"],
   [RTok.lit "fixId", RTok.ws0, RTok.lit "(", RTok.ws0,
    RTok.lit "final", RTok.ws0, RTok.lit "String", RTok.ws1, RTok.lit "id", RTok.ws0,
    RTok.lit ")"]]

/-- `CLEAN_LEADING_SLASH_PATTERN` (two alternation branches). -/
def cleanLeadingPats : List (List RTok) :=
  [[RTok.lit "startsWith", RTok.ws0, RTok.lit "(", RTok.ws0, RTok.lit "\"/\"", RTok.ws0,
    RTok.lit ")", RTok.ws0, RTok.lit "?", RTok.ws0, RTok.lit "id.substring(1)", RTok.ws0,
    RTok.lit ":", RTok.ws0, RTok.lit "id"],
   [RTok.lit "cleanedId", RTok.ws0, RTok.lit "=", RTok.ws0, RTok.lit "id.startsWith(\"/\")",
    RTok.ws0, RTok.lit "?", RTok.ws0, RTok.lit "id.substring(1)", RTok.ws0, RTok.lit ":",
    RTok.ws0, RTok.lit "id"]]

/-- `EXPAND_PREFIX_A_PATTERN = startsWith\s*\(\s*"a/"\s*\).*accounts`. -/
def expandAPats : List (List RTok) :=
  [[RTok.lit "startsWith", RTok.ws0, RTok.lit "(", RTok.ws0, RTok.lit "\"a/\"", RTok.ws0,
    RTok.lit ")", RTok.dotStarLit "accounts"]]

/-- `EXPAND_PREFIX_C_PATTERN = startsWith\s*\(\s*"c/"\s*\).*video-channels`. -/
def expandCPats : List (List RTok) :=
  [[RTok.lit "startsWith", RTok.ws0, RTok.lit "(", RTok.ws0, RTok.lit "\"c/\"", RTok.ws0,
    RTok.lit ")", RTok.dotStarLit "video-channels"]]

/-- `StrictPeertubeChannelIdParsingRule.analyze_file`. -/
def strictPeertubeAnalyze (fp : String) (lines : List String) : List IssueDetails :=
  if !pyEndsWith fp ".java" then []
  else if !strContains (pyLower fp) "peertube" then []
  else
    let content := String.intercalate "\n" lines
    let has_id_url_pattern := strContains content "ID_URL_PATTERN"
    let has_fixid_signature := searchToks false fixIdPats content.data
    let has_clean_leading := searchToks false cleanLeadingPats content.data
    let has_expand_a := searchToks false expandAPats content.data
    let has_expand_c := searchToks false expandCPats content.data
    if !has_id_url_pattern ||
        !(has_fixid_signature && has_clean_leading && has_expand_a && has_expand_c) then
      let detail_bits :=
        (if !has_id_url_pattern then
          ["Define ID_URL_PATTERN='/((accounts|a)|(video-channels|c))/([^/?&#]*)'"] else []) ++
        (if !has_clean_leading then ["Remove leading '/' in fixId"] else []) ++
        (if !has_expand_a then ["Expand 'a/' -> 'accounts/' in fixId"] else []) ++
        (if !has_expand_c then ["Expand 'c/' -> 'video-channels/' in fixId"] else [])
      let joined := String.intercalate "; " detail_bits
      [{ line_num := 1, code := "PeerTube link handler patterns",
         detail := if joined = "" then "PeerTube channel ID parsing likely incomplete."
           else joined,
         severity := "MEDIUM" }]
    else []

/-- `StrictPeertubeChannelIdParsingRule`. -/
def StrictPeertubeChannelIdParsingRule : Rule :=
  { name := "StrictPeertubeChannelIdParsingRule",
    issue_type := "PeerTube channel ID parsing too permissive/incorrect",
    suggestion := "Use '/((accounts|a)|(video-channels|c))/([^/?&#]*)' and normalize IDs by removing leading '/' and expanding 'a/'/'c/'.",
    analyze_file := strictPeertubeAnalyze }

/-- The declaration-line test of `UnsafeArrayIndexAccessRule._find_method_start`. -/
def isMethodDeclLine (line : String) : Bool :=
  (strContains line "public " || strContains line "private " ||
    strContains line "protected ") && strContains line "(" && strContains line ")"

/-- `UnsafeArrayIndexAccessRule._find_method_start`: scan backward from
line `i` (`range(current_line, -1, -1)`) for a declaration line; `-1`
when none is found. -/
def find_method_start (lines : List String) : Nat → Int
  | 0 => if isMethodDeclLine (lines.getD 0 "") then 0 else -1
  | i + 1 =>
    if isMethodDeclLine (lines.getD (i + 1) "") then ((i : Int) + 1)
    else find_method_start lines i

/-- Loop of `UnsafeArrayIndexAccessRule._find_method_end` over the suffix
`lines[i:]` (forward scan with brace counting); `-1` when the running brace
count never returns to zero. -/
def find_method_end_go : List String → Nat → Int → Bool → Int
  | [], _, _, _ => -1
  | line :: rest, i, brace_count, in_method =>
    let has_open := strContains line "\x7b"
    let bc1 := if has_open then brace_count + (pyCountChar line '\x7b' : Int) else brace_count
    let im1 := in_method || has_open
    if strContains line "\x7d" then
      let bc2 := bc1 - (pyCountChar line '\x7d' : Int)
      if im1 && (bc2 == 0) then (i : Int)
      else find_method_end_go rest (i + 1) bc2 im1
    else find_method_end_go rest (i + 1) bc1 im1

/-- `UnsafeArrayIndexAccessRule._find_method_end`. -/
def find_method_end (lines : List String) (current_line : Nat) : Int :=
  find_method_end_go (lines.drop current_line) current_line 0 false

/-- The `bounds_patterns` of `UnsafeArrayIndexAccessRule._has_bounds_check`
(`>=?` expanded into two branches). -/
def boundsPats (container index : List Char) : List (List RTok) :=
  [[RTok.lit (String.mk index), RTok.ws0, RTok.lit "<", RTok.ws0,
    RTok.lit (String.mk container), RTok.lit ".length"],
   [RTok.lit (String.mk index), RTok.ws0, RTok.lit "<=", RTok.ws0,
    RTok.lit (String.mk container), RTok.lit ".length"],
   [RTok.lit (String.mk index), RTok.ws0, RTok.lit ">=", RTok.ws0, RTok.lit "0", RTok.ws0,
    RTok.lit "&&", RTok.ws0, RTok.lit (String.mk index), RTok.ws0, RTok.lit "<"],
   [RTok.lit (String.mk index), RTok.ws0, RTok.lit ">", RTok.ws0, RTok.lit "0", RTok.ws0,
    RTok.lit "&&", RTok.ws0, RTok.lit (String.mk index), RTok.ws0, RTok.lit "<"],
   [RTok.lit (String.mk container), RTok.lit ".length", RTok.ws0, RTok.lit ">", RTok.ws0,
    RTok.lit (String.mk index)],
   [RTok.lit "isInsideTextRange"]]

/-- `UnsafeArrayIndexAccessRule._has_bounds_check`: `False` when the method
boundary search fails, else a case-insensitive search of the bounds
patterns over the enclosing method's lines. -/
def has_bounds_check (lines : List String) (current_line : Nat)
    (container index : List Char) : Bool :=
  let method_start := find_method_start lines current_line
  let method_end := find_method_end lines current_line
  if method_start == -1 || method_end == -1 then false
  else
    (List.range' method_start.toNat (method_end.toNat + 1 - method_start.toNat)).any
      (fun j => searchToks true (boundsPats container index) (lines.getD j "").data)

/-- `UnsafeArrayIndexAccessRule.analyze_file`. -/
def unsafeArrayIndexAnalyze (_fp : String) (lines : List String) : List IssueDetails :=
  (List.range lines.length).flatMap (fun i =>
    let line := lines.getD i ""
    let stripped := pyStrip line
    if stripped = "" || pyStartsWith stripped "//" then []
    else
      (match arrayAccessSearch line.data with
       | some (array_name, index_var) =>
         if !has_bounds_check lines i array_name index_var then
           [{ line_num := (i : Int) + 1, code := pyStrip line,
              detail := "Unsafe array access: `" ++ String.mk array_name ++ "[" ++
                String.mk index_var ++
                "]` without bounds checking. This can cause IndexOutOfBoundsException.",
              severity := "HIGH" }]
         else []
       | none => []) ++
      (match stringAccessSearch line.data with
       | some (string_name, method_name, index_var) =>
         if !has_bounds_check lines i string_name index_var then
           [{ line_num := (i : Int) + 1, code := pyStrip line,
              detail := "Unsafe " ++ method_name ++ " access: `" ++ String.mk string_name ++
                "." ++ method_name ++ "(" ++ String.mk index_var ++
                ")` without bounds checking. This can cause IndexOutOfBoundsException.",
              severity := "HIGH" }]
         else []
       | none => []))

/-- `UnsafeArrayIndexAccessRule`. -/
def UnsafeArrayIndexAccessRule : Rule :=
  { name := "UnsafeArrayIndexAccessRule",
    issue_type := "Unsafe Array Index Access Without Bounds Check",
    suggestion := "Array indices should be validated against array bounds before use to prevent IndexOutOfBoundsException. Add bounds checking or use safe access methods.",
    analyze_file := unsafeArrayIndexAnalyze }

/-- A Python value as stored in an issue dict (string or int). -/
inductive PyVal where
  | s (v : String)
  | i (v : Int)
deriving Repr, DecidableEq

/-- A Python dict with string keys, as an ordered association list. -/
abbrev PyDict := List (String × PyVal)

/-- Dict lookup (`d[k]` / `d.get(k)` semantics, first match). -/
def dget : PyDict → String → Option PyVal
  | [], _ => none
  | (k, v) :: rest, key => if k = key then some v else dget rest key

/-- A directory snapshot in `os.walk` enumeration order: each candidate file
path paired with `some lines` (its `readlines()` result) or `none` when
reading the file raises. -/
abbrev FileSystem := List (String × Option (List String))

/-- Opening a path in the snapshot: `none` when the path does not exist,
`some none` when reading raises. -/
def pyOpen : FileSystem → String → Option (Option (List String))
  | [], _ => none
  | (p, c) :: rest, q => if p = q then some c else pyOpen rest q

/-- The index range of `CodeScanner._get_context_lines`' loop
(`range(start_line, end_line)` with the source's clipping). -/
def context_idxs (n : Nat) (target_line : Int) (context_size : Nat) : List Nat :=
  let start_line : Int := max 0 (target_line - context_size - 1)
  let end_line : Int := min (n : Int) (target_line + context_size)
  if end_line ≤ start_line then []
  else List.range' start_line.toNat (end_line - start_line).toNat

/-- Python `f"{n:4d}"`. -/
def pad4 (n : Int) : String :=
  let s := toString n
  if s.length < 4 then String.mk (List.replicate (4 - s.length) ' ') ++ s else s

/-- One rendered context line: `f"{prefix}{line_num:4d}: {lines[i].rstrip()}"`. -/
def render_context_line (lines : List String) (target_line : Int) (i : Nat) : String :=
  let line_num : Int := (i : Int) + 1
  let pfx := if line_num = target_line then ">>> " else "    "
  pfx ++ pad4 line_num ++ ": " ++ pyRstrip (lines.getD i "")

/-- The list of context lines built by `CodeScanner._get_context_lines`. -/
def context_entries (lines : List String) (target_line : Int) (context_size : Nat) :
    List String :=
  (context_idxs lines.length target_line context_size).map
    (render_context_line lines target_line)

/-- `CodeScanner._get_context_lines`: re-reads the file and joins the context
block; any read failure yields a short diagnostic string. -/
def get_context_lines (fs : FileSystem) (file_path : String) (target_line : Int)
    (context_size : Nat) : String :=
  match pyOpen fs file_path with
  | some (some lines) =>
    String.intercalate "\n" (context_entries lines target_line context_size)
  | _ => "Unable to get context code: read error"

/-- `CodeScanner._format_issue`: the dict handed to downstream consumers.
Its keys are exactly those of the source literal (note: no `severity`). -/
def format_issue (fs : FileSystem) (file_path : String) (rule : Rule)
    (issue_details : IssueDetails) : PyDict :=
  [("file_path", PyVal.s file_path),
   ("line_num", PyVal.i issue_details.line_num),
   ("issue_type", PyVal.s rule.issue_type),
   ("code", PyVal.s issue_details.code),
   ("context_code", PyVal.s (get_context_lines fs file_path issue_details.line_num 10)),
   ("suggestion", PyVal.s rule.suggestion),
   ("rule_name", PyVal.s rule.name),
   ("detail", PyVal.s issue_details.detail)]

/-- The scanner engine: owns the active rule list. -/
structure CodeScanner where
  rules : List Rule

/-- `CodeScanner.__init__`: raises `ValueError` on an empty rule list. -/
def CodeScanner.init (rules : List Rule) : Except String CodeScanner :=
  if rules.isEmpty then
    Except.error "CodeScanner must be initialized with at least one rule."
  else Except.ok { rules := rules }

/-- Processing of one enumerated file inside `CodeScanner.scan_repository`:
extension gating, the caught read failure (contributing no issues), and the
per-rule analysis loop with `_format_issue`. -/
def per_file (fs : FileSystem) (rules : List Rule) (file_path : String)
    (content : Option (List String)) : List PyDict :=
  if pyEndsWith file_path ".kt" || pyEndsWith file_path ".java" then
    match content with
    | some lines =>
      rules.flatMap (fun rule =>
        (rule.analyze_file file_path lines).map (format_issue fs file_path rule))
    | none => []
  else []

/-- `CodeScanner.scan_repository` over a directory snapshot. -/
def CodeScanner.scan_repository (self : CodeScanner) (fs : FileSystem) : List PyDict :=
  fs.flatMap (fun pc => per_file fs self.rules pc.1 pc.2)

/-- `issue['file_path']` as used by the reporter's grouping. -/
def issue_file_path (d : PyDict) : String :=
  match dget d "file_path" with
  | some (PyVal.s v) => v
  | _ => ""

/-- `issue['line_num']` as used by the reporter's sort key. -/
def issue_line_num (d : PyDict) : Int :=
  match dget d "line_num" with
  | some (PyVal.i v) => v
  | _ => 0

/-- Python string conversion of a dict value (for f-string rendering). -/
def pyValText : PyVal → String
  | PyVal.s v => v
  | PyVal.i v => toString v

/-- `issue.get('severity', 'UNKNOWN')` in `report_issues`. -/
def issue_severity (d : PyDict) : PyVal :=
  (dget d "severity").getD (PyVal.s "UNKNOWN")

/-- The severity marker chain of `report_issues`. -/
def severity_icon (v : PyVal) : String :=
  if v = PyVal.s "HIGH" then "🔴"
  else if v = PyVal.s "MEDIUM" then "🟡"
  else if v = PyVal.s "LOW" then "🟢"
  else "⚪"

/-- One step of the reporter's grouping loop (`issues_by_file` insertion). -/
def add_issue_to_groups (acc : List (String × List PyDict)) (issue : PyDict) :
    List (String × List PyDict) :=
  if acc.any (fun e => e.1 == issue_file_path issue) then
    acc.map (fun e =>
      if e.1 == issue_file_path issue then (e.1, e.2 ++ [issue]) else e)
  else acc ++ [(issue_file_path issue, [issue])]

/-- The reporter's `issues_by_file` dict, in first-occurrence key order. -/
def group_issues_by_file (issues : List PyDict) : List (String × List PyDict) :=
  issues.foldl add_issue_to_groups []

/-- The reporter's sort: `sorted(file_issues, key=lambda x: x['line_num'])`
(Python's sort is a stable merge sort). -/
def sort_issues_by_line (g : List PyDict) : List PyDict :=
  g.mergeSort (fun a b => issue_line_num a ≤ issue_line_num b)

/-- The block of lines printed for one issue. -/
def report_issue_block (issue : PyDict) : List String :=
  let severity := issue_severity issue
  ["  - " ++ severity_icon severity ++ " [L" ++
     pyValText ((dget issue "line_num").getD (PyVal.i 0)) ++ "] " ++
     pyValText ((dget issue "issue_type").getD (PyVal.s "")) ++ " (" ++
     pyValText severity ++ ")",
   "    Code: `" ++ pyValText ((dget issue "code").getD (PyVal.s "")) ++ "`",
   "    Context:",
   "    " ++ pyValText ((dget issue "context_code").getD (PyVal.s "No context information")),
   "    Suggestion: " ++ pyValText ((dget issue "suggestion").getD (PyVal.s ""))] ++
  (if pyValText ((dget issue "detail").getD (PyVal.s "")) ≠ "" then
    ["    Detail: " ++ pyValText ((dget issue "detail").getD (PyVal.s ""))]
   else []) ++
  [String.mk (List.replicate 40 '-')]

/-- `report_issues`: the sequence of printed lines. -/
def report_issues (issues : List PyDict) : List String :=
  if issues.isEmpty then ["\n🎉 Scan completed! No issues found."]
  else
    ("\n🚨 Scan completed! Found " ++ toString issues.length ++ " potential issues:") ::
    (group_issues_by_file issues).flatMap (fun pg =>
      ("\n" ++ String.mk (List.replicate 80 '=')) ::
      ("📄 File: " ++ pg.1) ::
      String.mk (List.replicate 80 '=') ::
      (sort_issues_by_line pg.2).flatMap report_issue_block)

/-- Modelled from the spec's words (for the refinement comparison of the
context window): the inclusive list of integers from `a` to `b`. -/
def intsFromTo (a b : Int) : List Int :=
  if a ≤ b then (List.range ((b - a).toNat + 1)).map (fun k : Nat => a + (k : Int)) else []

/-- Modelled from the spec's words: the 1-based window
`[max(1, t - 10), min(n, t + 10)]` for a file of `n` lines. -/
def spec_context_window (n : Nat) (t : Int) : List Int :=
  intsFromTo (max 1 (t - 10)) (min (n : Int) (t + 10))

/-- Every payload `UnsafeStartActivityRule`'s yield step produces carries the
1-based number of the line it was produced at. -/
theorem usaYield_line_num (i : Nat) (line : String) (stack : List Nat) (caught : Bool)
    (d : IssueDetails) (hd : d ∈ usaYield i line stack caught) :
    d.line_num = (i : Int) + 1 := by
  unfold usaYield at hd
  split at hd
  · simp at hd
  · split at hd
    · simp at hd
      subst hd
      rfl
    · split at hd
      · simp at hd
        subst hd
        rfl
      · simp at hd

/-- Payloads of `UnsafeStartActivityRule`'s scanning loop have line numbers
strictly after the start index and within the processed suffix. -/
theorem usaGo_line_bounds (rest : List String) :
    ∀ (i : Nat) (stack : List Nat) (caught : Bool) (d : IssueDetails),
      d ∈ usaGo rest i stack caught →
      (i : Int) < d.line_num ∧ d.line_num ≤ (i : Int) + rest.length := by
  induction rest with
  | nil =>
    intro i st c d hd
    simp [usaGo] at hd
  | cons line rest ih =>
    intro i st c d hd
    rw [usaGo] at hd
    split at hd
    · have h := ih (i + 1) st c d hd
      simp only [List.length_cons]
      push_cast at h ⊢
      omega
    · rw [List.mem_append] at hd
      rcases hd with h | h
      · have h2 := usaYield_line_num _ _ _ _ _ h
        simp only [List.length_cons]
        push_cast
        omega
      · have h2 := ih (i + 1) _ _ d h
        simp only [List.length_cons]
        push_cast at h2 ⊢
        omega

/-- `StrictPeertubeChannelIdParsingRule` only ever reports line number 1. -/
theorem peertube_line_num (fp : String) (lines : List String) (d : IssueDetails)
    (hd : d ∈ strictPeertubeAnalyze fp lines) : d.line_num = 1 := by
  simp only [strictPeertubeAnalyze] at hd
  split at hd
  · simp at hd
  · split at hd
    · simp at hd
    · split at hd
      · simp at hd
        subst hd
        rfl
      · simp at hd

/-- C2 (amended): for the cited rules, every Finding's `line_number` `n`
satisfies `1 ≤ n`, and `n ≤ total_lines_in_file` holds unconditionally for
`UnsafeStartActivityRule` and for every file with at least one line for
`StrictPeertubeChannelIdParsingRule`; the latter emits `line_number = 1`
even on a zero-line file, where the upper bound fails. -/
theorem line_number_bounds_amended (fp : String) (lines : List String) (d : IssueDetails) :
    (d ∈ UnsafeStartActivityRule.analyze_file fp lines →
      1 ≤ d.line_num ∧ d.line_num ≤ (lines.length : Int)) ∧
    (d ∈ StrictPeertubeChannelIdParsingRule.analyze_file fp lines →
      d.line_num = 1 ∧ (lines ≠ [] → d.line_num ≤ (lines.length : Int))) := by
  constructor
  · intro hd
    have h := usaGo_line_bounds lines 0 [] false d hd
    omega
  · intro hd
    have h := peertube_line_num fp lines d hd
    refine ⟨h, fun hne => ?_⟩
    have hpos : 0 < lines.length := List.length_pos.mpr hne
    omega

/-- C2 (witness): a file containing one `startActivity` call yields a Finding
whose line number lies within the file's bounds. -/
theorem line_number_bounds_amended_witness :
    1 ≤ (IssueDetails.mk 1 "startActivity(i)"
      "Unsafe MEDIUM risk call found: `startActivity(`. No exception handling detected."
      "MEDIUM").line_num ∧
    (IssueDetails.mk 1 "startActivity(i)"
      "Unsafe MEDIUM risk call found: `startActivity(`. No exception handling detected."
      "MEDIUM").line_num ≤ ((["startActivity(i)"] : List String).length : Int) :=
  (line_number_bounds_amended "A.kt" ["startActivity(i)"]
    (IssueDetails.mk 1 "startActivity(i)"
      "Unsafe MEDIUM risk call found: `startActivity(`. No exception handling detected."
      "MEDIUM")).1 (by decide)

/-- C2 (counterexample): on a zero-line `peertube` Java file the rule yields a
Finding with `line_number = 1`, violating `line_number ≤ total_lines_in_file`. -/
theorem peertube_zero_line_cex :
    (StrictPeertubeChannelIdParsingRule.analyze_file "peertube/A.java"
      ([] : List String)).map IssueDetails.line_num = [1] ∧
    ¬ ((1 : Int) ≤ ((([] : List String)).length : Int)) :=
  ⟨by decide, by decide⟩

/-- C3 (amended): when the method-boundary search cannot be resolved for the
matched line (`_find_method_start` or `_find_method_end` returns `-1`),
`_has_bounds_check` returns `False`, so the rule treats the occurrence as
unguarded and reports it rather than skipping it (and never fails the file). -/
theorem unresolved_boundary_no_guard (lines : List String) (current_line : Nat)
    (container index : List Char)
    (h : find_method_start lines current_line = -1 ∨
      find_method_end lines current_line = -1) :
    has_bounds_check lines current_line container index = false := by
  unfold has_bounds_check
  rcases h with h | h <;> rw [h] <;> simp

/-- C3 (witness): the boundary search fails on a one-line file, and
`_has_bounds_check` reports no guard there. -/
theorem unresolved_boundary_no_guard_witness :
    has_bounds_check ["foo[i] = 0;"] 0 "foo".data "i".data = false :=
  unresolved_boundary_no_guard ["foo[i] = 0;"] 0 "foo".data "i".data
    (Or.inl (by decide))

/-- C3 (counterexample): a file where the boundary search is unresolved for
the matched line, yet `UnsafeArrayIndexAccessRule` yields a Finding for that
occurrence instead of skipping it. -/
theorem unresolved_boundary_reported_cex :
    find_method_start ["foo[i] = 0;"] 0 = -1 ∧
    (UnsafeArrayIndexAccessRule.analyze_file "A.java" ["foo[i] = 0;"]).map
      IssueDetails.line_num = [1] :=
  ⟨by decide, by decide⟩

/-- C1: rules assign a per-occurrence `severity` (e.g. `HIGH` on the sample
input), but `_format_issue` drops it — the formatted record has no
`severity` key — so `report_issues` falls back to `UNKNOWN` and always
prints the `⚪` marker instead of the assigned severity's marker. -/
theorem format_issue_drops_severity (fs : FileSystem) (p : String) (r : Rule)
    (d : IssueDetails) :
    dget (format_issue fs p r d) "severity" = none ∧
    issue_severity (format_issue fs p r d) = PyVal.s "UNKNOWN" ∧
    severity_icon (issue_severity (format_issue fs p r d)) = "⚪" ∧
    (UnsafeArrayIndexAccessRule.analyze_file "app/A.java" ["foo[i] = 0;"]).map
      IssueDetails.severity = ["HIGH"] :=
  ⟨rfl, rfl, rfl, by decide⟩

/-- C9: constructing the engine with an empty rule list fails with the
`ValueError` immediately, and any non-empty rule list succeeds. -/
theorem scanner_init_rules (rules : List Rule) :
    (rules = [] → CodeScanner.init rules =
      Except.error "CodeScanner must be initialized with at least one rule.") ∧
    (rules ≠ [] → CodeScanner.init rules = Except.ok ⟨rules⟩) := by
  constructor
  · intro h
    subst h
    rfl
  · intro h
    cases rules with
    | nil => exact absurd rfl h
    | cons a l => rfl

/-- C9 (witness): the two construction outcomes at concrete rule lists. -/
theorem scanner_init_rules_witness :
    CodeScanner.init [] =
      Except.error "CodeScanner must be initialized with at least one rule." ∧
    CodeScanner.init [UnsafeArrayIndexAccessRule] =
      Except.ok ⟨[UnsafeArrayIndexAccessRule]⟩ :=
  ⟨(scanner_init_rules []).1 rfl,
   (scanner_init_rules [UnsafeArrayIndexAccessRule]).2 (List.cons_ne_nil _ _)⟩

/-- C10: the context extractor is total and clipped: every rendered index is
in range for any integer target line, and a target wholly outside the file
(or any target on a zero-line file) yields an empty block. -/
theorem context_extractor_total (lines : List String) (t : Int) :
    (∀ i ∈ context_idxs lines.length t 10, i < lines.length) ∧
    ((lines.length : Int) + 10 < t → context_entries lines t 10 = []) ∧
    (lines = [] → context_entries lines t 10 = []) := by
  refine ⟨?_, ?_, ?_⟩
  · intro i hi
    simp only [context_idxs] at hi
    split at hi
    · simp at hi
    · rename_i hcond
      rw [List.mem_range'_1] at hi
      omega
  · intro ht
    have hidx : context_idxs lines.length t 10 = [] := by
      simp only [context_idxs]
      rw [if_pos (by omega)]
    simp [context_entries, hidx]
  · intro h
    subst h
    have hidx : context_idxs 0 t 10 = [] := by
      simp only [context_idxs]
      rw [if_pos (by omega)]
    simp [context_entries, hidx]

/-- C10 (witness): a target far beyond the end of a one-line file renders an
empty context block. -/
theorem context_extractor_total_witness :
    context_entries ["a"] 100 10 = [] :=
  (context_extractor_total ["a"] 100).2.1 (by decide)

/-- C7: for a target line within the file, the default-window context block
is exactly the lines numbered `[max(1, t-10), min(n, t+10)]`, each prefixed
with its 1-based number, with the marker exactly on line `t`, and every
index used is in range. -/
theorem context_window_exact (lines : List String) (t : Int) (h1 : 1 ≤ t)
    (h2 : t ≤ (lines.length : Int)) :
    context_entries lines t 10 =
      (spec_context_window lines.length t).map (fun ln =>
        (if ln = t then ">>> " else "    ") ++ pad4 ln ++ ": " ++
          pyRstrip (lines.getD (ln - 1).toNat "")) ∧
    ∀ i ∈ context_idxs lines.length t 10, i < lines.length := by
  constructor
  · have hidxs : context_idxs lines.length t 10 =
        List.range' (max 0 (t - 11)).toNat
          (min ((lines.length : Int)) (t + 10) - max 0 (t - 11)).toNat := by
      simp only [context_idxs]
      rw [if_neg (by omega)]
      congr 1 <;> omega
    have hspec : spec_context_window lines.length t =
        (List.range ((min ((lines.length : Int)) (t + 10) - max 1 (t - 10)).toNat + 1)).map
          (fun k : Nat => max 1 (t - 10) + (k : Int)) := by
      simp only [spec_context_window, intsFromTo]
      rw [if_pos (by omega)]
    simp only [context_entries, hidxs, hspec, List.map_map]
    apply List.ext_getElem
    · simp only [List.length_map, List.length_range', List.length_range]
      omega
    · intro i hL hR
      simp only [List.length_map, List.length_range'] at hL
      simp only [List.getElem_map, List.getElem_range', List.getElem_range,
        Function.comp_apply, render_context_line]
      have e2 : ((max 1 (t - 10) + (i : Int)) - 1).toNat =
          (max 0 (t - 11)).toNat + 1 * i := by omega
      have e1 : (((max 0 (t - 11)).toNat + 1 * i : Nat) : Int) + 1 =
          max 1 (t - 10) + (i : Int) := by push_cast; omega
      rw [e2, ← e1]
  · intro i hi
    simp only [context_idxs] at hi
    split at hi
    · simp at hi
    · rename_i hcond
      rw [List.mem_range'_1] at hi
      omega

/-- C7 (witness): the window on a two-line file with target line 1. -/
theorem context_window_exact_witness :
    context_entries ["a", "b"] 1 10 =
      (spec_context_window (["a", "b"] : List String).length 1).map (fun ln =>
        (if ln = 1 then ">>> " else "    ") ++ pad4 ln ++ ": " ++
          pyRstrip ((["a", "b"] : List String).getD (ln - 1).toNat "")) ∧
    ∀ i ∈ context_idxs (["a", "b"] : List String).length 1 10,
      i < (["a", "b"] : List String).length :=
  context_window_exact ["a", "b"] 1 (by decide) (by decide)

/-- `flatMap` respects pointwise-equal functions. -/
theorem flatMap_congr_aux {α β : Type} {l : List α} {f g : α → List β}
    (h : ∀ a ∈ l, f a = g a) : l.flatMap f = l.flatMap g := by
  induction l with
  | nil => rfl
  | cons a l ih =>
    rw [List.flatMap_cons, List.flatMap_cons, h a (by simp),
      ih (fun x hx => h x (by simp [hx]))]

/-- Every formatted issue records the producing rule's name. -/
theorem dget_format_issue_rule_name (fs : FileSystem) (p : String) (r : Rule)
    (d : IssueDetails) :
    dget (format_issue fs p r d) "rule_name" = some (PyVal.s r.name) := rfl

/-- `per_file` depends on the snapshot only through opening the scanned path
(for context re-reads). -/
theorem per_file_fs_congr (fsA fsB : FileSystem) (rules : List Rule) (p : String)
    (c : Option (List String)) (h : pyOpen fsA p = pyOpen fsB p) :
    per_file fsA rules p c = per_file fsB rules p c := by
  have hfi : format_issue fsA p = format_issue fsB p := by
    funext rule d
    simp only [format_issue, get_context_lines, h]
  simp only [per_file, hfi]

/-- Dropping one rule from the list filters out exactly its formatted issues
in one file's results. -/
theorem per_file_rule_removed (fs : FileSystem) (p : String) (c : Option (List String))
    (l1 l2 : List Rule) (r : Rule) (h : ∀ r' ∈ l1 ++ l2, r'.name ≠ r.name) :
    per_file fs (l1 ++ l2) p c =
      (per_file fs (l1 ++ r :: l2) p c).filter
        (fun d => decide (dget d "rule_name" ≠ some (PyVal.s r.name))) := by
  cases c with
  | none =>
    simp only [per_file]
    split <;> rfl
  | some lines =>
    simp only [per_file]
    by_cases hext : (pyEndsWith p ".kt" || pyEndsWith p ".java") = true
    · rw [if_pos hext, if_pos hext]
      rw [List.filter_flatMap, List.flatMap_append, List.flatMap_append,
        List.flatMap_cons]
      have hdrop :
          ((r.analyze_file p lines).map (format_issue fs p r)).filter
            (fun d => decide (dget d "rule_name" ≠ some (PyVal.s r.name))) = [] := by
        rw [List.filter_eq_nil_iff]
        intro x hx
        rw [List.mem_map] at hx
        obtain ⟨d, _, rfl⟩ := hx
        simp [dget_format_issue_rule_name]
      have hkeep : ∀ rule ∈ l1 ++ l2,
          ((rule.analyze_file p lines).map (format_issue fs p rule)).filter
            (fun d => decide (dget d "rule_name" ≠ some (PyVal.s r.name))) =
          (rule.analyze_file p lines).map (format_issue fs p rule) := by
        intro rule hrule
        rw [List.filter_eq_self]
        intro x hx
        rw [List.mem_map] at hx
        obtain ⟨d, _, rfl⟩ := hx
        simp [dget_format_issue_rule_name, h rule hrule]
      rw [hdrop, List.nil_append]
      rw [flatMap_congr_aux (fun rule hrule => (hkeep rule (List.mem_append_left _ hrule)).symm),
        flatMap_congr_aux (fun rule hrule => (hkeep rule (List.mem_append_right _ hrule)).symm)]
    · rw [if_neg hext, if_neg hext]
      rfl

/-- C4: removing one rule (of a distinct name) from the active list removes
exactly the Findings whose `rule_name` is that rule's; every other Finding
of the ScanResult is unchanged. -/
theorem rule_isolation (fs : FileSystem) (l1 l2 : List Rule) (r : Rule)
    (h : ∀ r' ∈ l1 ++ l2, r'.name ≠ r.name) :
    CodeScanner.scan_repository ⟨l1 ++ l2⟩ fs =
      (CodeScanner.scan_repository ⟨l1 ++ r :: l2⟩ fs).filter
        (fun d => decide (dget d "rule_name" ≠ some (PyVal.s r.name))) := by
  unfold CodeScanner.scan_repository
  rw [List.filter_flatMap]
  exact flatMap_congr_aux (fun pc _ => per_file_rule_removed fs pc.1 pc.2 l1 l2 r h)

/-- C4 (witness): dropping `UnsafeArrayIndexAccessRule` from a two-rule list
over a one-file snapshot filters out exactly its findings. -/
theorem rule_isolation_witness :
    CodeScanner.scan_repository ⟨[UnsafeStartActivityRule]⟩
      [("a/F.java", some ["foo[i] = 0;"])] =
      (CodeScanner.scan_repository ⟨[UnsafeStartActivityRule, UnsafeArrayIndexAccessRule]⟩
        [("a/F.java", some ["foo[i] = 0;"])]).filter
        (fun d => decide (dget d "rule_name" ≠
          some (PyVal.s UnsafeArrayIndexAccessRule.name))) :=
  rule_isolation [("a/F.java", some ["foo[i] = 0;"])] [UnsafeStartActivityRule] []
    UnsafeArrayIndexAccessRule (by
      intro r' hr'
      simp only [List.append_nil, List.mem_singleton] at hr'
      subst hr'
      decide)

/-- Looking up a path distinct from an inserted entry's path ignores it. -/
theorem pyOpen_append_middle (fs1 fs2 : FileSystem) (p : String)
    (c : Option (List String)) (q : String) (hq : q ≠ p) :
    pyOpen (fs1 ++ (p, c) :: fs2) q = pyOpen (fs1 ++ fs2) q := by
  induction fs1 with
  | nil =>
    simp only [List.nil_append, pyOpen]
    rw [if_neg (fun hh => hq hh.symm)]
  | cons x fs1 ih =>
    cases x with
    | mk a b =>
      simp only [List.cons_append, pyOpen]
      by_cases haq : a = q
      · rw [if_pos haq, if_pos haq]
      · rw [if_neg haq, if_neg haq]
        exact ih

/-- C5: a file whose read raises (at a path not otherwise in the tree)
contributes nothing and leaves every other file's Findings unchanged; the
scan completes. -/
theorem bad_file_isolated (fs1 fs2 : FileSystem) (p : String) (rules : List Rule)
    (h : p ∉ (fs1 ++ fs2).map Prod.fst) :
    CodeScanner.scan_repository ⟨rules⟩ (fs1 ++ (p, none) :: fs2) =
      CodeScanner.scan_repository ⟨rules⟩ (fs1 ++ fs2) := by
  unfold CodeScanner.scan_repository
  rw [List.flatMap_append, List.flatMap_cons, List.flatMap_append]
  have hmid : per_file (fs1 ++ (p, none) :: fs2) rules p none = [] := by
    unfold per_file
    split <;> rfl
  rw [hmid, List.nil_append]
  have hcong : ∀ pc ∈ fs1 ++ fs2,
      per_file (fs1 ++ (p, none) :: fs2) rules pc.1 pc.2 =
        per_file (fs1 ++ fs2) rules pc.1 pc.2 := by
    intro pc hpc
    apply per_file_fs_congr
    apply pyOpen_append_middle
    intro hz
    exact h (hz ▸ List.mem_map_of_mem Prod.fst hpc)
  rw [flatMap_congr_aux (fun a ha => hcong a (List.mem_append_left _ ha)),
    flatMap_congr_aux (fun a ha => hcong a (List.mem_append_right _ ha))]

/-- C5 (witness): adding an unreadable `bad.kt` to a one-file snapshot leaves
the scan result unchanged. -/
theorem bad_file_isolated_witness :
    CodeScanner.scan_repository ⟨[UnsafeArrayIndexAccessRule]⟩
      ([("a/F.java", some ["foo[i] = 0;"])] ++ ("bad.kt", none) :: []) =
      CodeScanner.scan_repository ⟨[UnsafeArrayIndexAccessRule]⟩
        ([("a/F.java", some ["foo[i] = 0;"])] ++ []) :=
  bad_file_isolated [("a/F.java", some ["foo[i] = 0;"])] [] "bad.kt"
    [UnsafeArrayIndexAccessRule] (by decide)

/-- On duplicate-free paths, opening a file is invariant under re-enumeration
of the snapshot. -/
theorem pyOpen_perm_eq (fs1 fs2 : FileSystem) (hp : fs1.Perm fs2)
    (hn : (fs1.map Prod.fst).Nodup) (q : String) :
    pyOpen fs1 q = pyOpen fs2 q := by
  induction hp with
  | nil => rfl
  | cons x l12 ih =>
    cases x with
    | mk a b =>
      simp only [pyOpen]
      by_cases haq : a = q
      · rw [if_pos haq, if_pos haq]
      · rw [if_neg haq, if_neg haq]
        apply ih
        simp only [List.map_cons, List.nodup_cons] at hn
        exact hn.2
  | swap x y l =>
    cases x with
    | mk a b =>
      cases y with
      | mk a2 b2 =>
        have hne : a2 ≠ a := by
          simp only [List.map_cons, List.nodup_cons, List.mem_cons] at hn
          exact fun hh => hn.1 (Or.inl hh)
        simp only [pyOpen]
        by_cases h1 : a2 = q
        · rw [if_pos h1, if_neg (fun hh : a = q => hne (h1.trans hh.symm)), if_pos h1]
        · by_cases h2 : a = q
          · rw [if_neg h1, if_pos h2, if_pos h2]
          · rw [if_neg h1, if_neg h2, if_neg h2, if_neg h1]
  | trans p1 p2 ih1 ih2 =>
    rw [ih1 hn, ih2 ((p1.map Prod.fst).nodup hn)]

/-- C6: over a fixed duplicate-free path-to-content mapping and fixed rule
list, the ScanResult is a pure function of the snapshot: re-enumerating the
same files in any order yields the same Findings (as a permutation, which
the Reporter re-sorts), with no other dependence. -/
theorem scan_enumeration_invariant (rules : List Rule) (fs1 fs2 : FileSystem)
    (hp : fs1.Perm fs2) (hn : (fs1.map Prod.fst).Nodup) :
    (CodeScanner.scan_repository ⟨rules⟩ fs1).Perm
      (CodeScanner.scan_repository ⟨rules⟩ fs2) := by
  unfold CodeScanner.scan_repository
  rw [flatMap_congr_aux (fun pc _ =>
    per_file_fs_congr fs1 fs2 rules pc.1 pc.2 (pyOpen_perm_eq fs1 fs2 hp hn pc.1))]
  exact List.Perm.flatMap_right _ hp

/-- C6 (witness): the two enumeration orders of a two-file snapshot yield
permuted (here in fact equal-content) scan results. -/
theorem scan_enumeration_invariant_witness :
    (CodeScanner.scan_repository ⟨[UnsafeArrayIndexAccessRule]⟩
      [("a/F.java", some ["foo[i] = 0;"]), ("b.kt", some ([] : List String))]).Perm
      (CodeScanner.scan_repository ⟨[UnsafeArrayIndexAccessRule]⟩
        [("b.kt", some ([] : List String)), ("a/F.java", some ["foo[i] = 0;"])]) :=
  scan_enumeration_invariant [UnsafeArrayIndexAccessRule]
    [("a/F.java", some ["foo[i] = 0;"]), ("b.kt", some ([] : List String))]
    [("b.kt", some ([] : List String)), ("a/F.java", some ["foo[i] = 0;"])]
    (by decide) (by decide)

/-- Invariant of the reporter's grouping loop: every accumulated group holds
exactly the already-processed issues with its file path. -/
theorem group_fold_spec (rest : List PyDict) :
    ∀ (acc : List (String × List PyDict)) (pref : List PyDict),
      (∀ pg ∈ acc, pg.2 = pref.filter (fun x => issue_file_path x == pg.1)) →
      (∀ q, acc.any (fun e => e.1 == q) = false →
        pref.filter (fun x => issue_file_path x == q) = []) →
      ∀ pg ∈ rest.foldl add_issue_to_groups acc,
        pg.2 = (pref ++ rest).filter (fun x => issue_file_path x == pg.1) := by
  induction rest with
  | nil =>
    intro acc pref h1 h2 pg hpg
    simpa using h1 pg hpg
  | cons d rest ih =>
    intro acc pref h1 h2 pg hpg
    rw [List.foldl_cons] at hpg
    have h1' : ∀ pg ∈ add_issue_to_groups acc d,
        pg.2 = (pref ++ [d]).filter (fun x => issue_file_path x == pg.1) := by
      intro pg' hpg'
      unfold add_issue_to_groups at hpg'
      rw [List.filter_append]
      by_cases hin : acc.any (fun e => e.1 == issue_file_path d) = true
      · rw [if_pos hin] at hpg'
        rw [List.mem_map] at hpg'
        obtain ⟨e, he, rfl⟩ := hpg'
        by_cases heq : (e.1 == issue_file_path d) = true
        · rw [if_pos heq]
          have hfd : (issue_file_path d == e.1) = true := by
            rw [beq_iff_eq] at heq ⊢
            exact heq.symm
          simp [hfd, h1 e he]
        · rw [if_neg heq]
          have hfd : (issue_file_path d == e.1) = false := by
            rw [Bool.not_eq_true, beq_eq_false_iff_ne] at heq
            rw [beq_eq_false_iff_ne]
            exact fun hh => heq hh.symm
          simp [hfd, h1 e he]
      · rw [if_neg hin] at hpg'
        rw [List.mem_append] at hpg'
        have hfalse : acc.any (fun e => e.1 == issue_file_path d) = false :=
          Bool.eq_false_iff.mpr hin
        rcases hpg' with hpg' | hpg'
        · have hne : (issue_file_path d == pg'.1) = false := by
            rw [beq_eq_false_iff_ne]
            intro hh
            have hx : (pg'.1 == issue_file_path d) = true := by
              rw [beq_iff_eq]
              exact hh.symm
            have hy : acc.any (fun e => e.1 == issue_file_path d) = true :=
              List.any_eq_true.mpr ⟨pg', hpg', hx⟩
            rw [hfalse] at hy
            exact Bool.false_ne_true hy
          rw [h1 pg' hpg']
          simp [hne]
        · rw [List.mem_singleton] at hpg'
          subst hpg'
          rw [h2 _ hfalse]
          simp
    have h2' : ∀ q, (add_issue_to_groups acc d).any (fun e => e.1 == q) = false →
        (pref ++ [d]).filter (fun x => issue_file_path x == q) = [] := by
      intro q hq
      rw [List.filter_append]
      unfold add_issue_to_groups at hq
      by_cases hin : acc.any (fun e => e.1 == issue_file_path d) = true
      · rw [if_pos hin] at hq
        have hfun : ((fun e : String × List PyDict => e.1 == q) ∘
            (fun e : String × List PyDict =>
              if e.1 == issue_file_path d then (e.1, e.2 ++ [d]) else e)) =
            (fun e : String × List PyDict => e.1 == q) := by
          funext e
          simp only [Function.comp_apply]
          split <;> rfl
        rw [List.any_map, hfun] at hq
        have hkeyq : (issue_file_path d == q) = false := by
          rw [beq_eq_false_iff_ne]
          intro hkq
          rw [← hkq] at hq
          rw [hq] at hin
          exact Bool.false_ne_true hin
        rw [h2 q hq]
        simp [hkeyq]
      · rw [if_neg hin] at hq
        rw [List.any_append] at hq
        have hparts := Bool.or_eq_false_iff.mp hq
        rw [h2 q hparts.1]
        have hkeyq : (issue_file_path d == q) = false := by
          simpa using hparts.2
        simp [hkeyq]
    have hmain := ih (add_issue_to_groups acc d) (pref ++ [d]) h1' h2' pg hpg
    simpa [List.append_assoc] using hmain

/-- C8: the reporter's per-file group for path `p` is exactly the Findings
with `file_path = p` (insertion order preserved), the printed order of a
group is a sorted-ascending permutation of it, and an empty ScanResult is
reported as "no issues found". -/
theorem reporter_groups_sorts (issues : List PyDict) (p : String) (g : List PyDict) :
    ((p, g) ∈ group_issues_by_file issues →
      g = issues.filter (fun x => issue_file_path x == p) ∧
      (sort_issues_by_line g).Perm g ∧
      List.Sorted (fun a b => issue_line_num a ≤ issue_line_num b)
        (sort_issues_by_line g)) ∧
    report_issues [] = ["\n🎉 Scan completed! No issues found."] := by
  constructor
  · intro hmem
    refine ⟨?_, List.mergeSort_perm g _, ?_⟩
    · have := group_fold_spec issues [] []
        (fun pg hpg => absurd hpg (List.not_mem_nil _))
        (fun q _ => rfl) (p, g) hmem
      simpa using this
    · have hp := @List.sorted_mergeSort PyDict
        (fun a b => issue_line_num a ≤ issue_line_num b)
        (fun a b c hab hbc =>
          decide_eq_true (le_trans (of_decide_eq_true hab) (of_decide_eq_true hbc)))
        (fun a b => by
          rcases le_total (issue_line_num a) (issue_line_num b) with h | h <;> simp [h]) g
      exact List.Pairwise.imp (fun h => of_decide_eq_true h) hp
  · rfl

/-- C8 (witness): a two-finding result for one file is grouped under that
file, filtered exactly, and its printed order is sorted. -/
theorem reporter_groups_sorts_witness :
    [[("file_path", PyVal.s "a"), ("line_num", PyVal.i 2)],
     [("file_path", PyVal.s "a"), ("line_num", PyVal.i 1)]] =
      ([[("file_path", PyVal.s "a"), ("line_num", PyVal.i 2)],
        [("file_path", PyVal.s "a"), ("line_num", PyVal.i 1)]] : List PyDict).filter
        (fun x => issue_file_path x == "a") ∧
    (sort_issues_by_line
      [[("file_path", PyVal.s "a"), ("line_num", PyVal.i 2)],
       [("file_path", PyVal.s "a"), ("line_num", PyVal.i 1)]]).Perm
      [[("file_path", PyVal.s "a"), ("line_num", PyVal.i 2)],
       [("file_path", PyVal.s "a"), ("line_num", PyVal.i 1)]] ∧
    List.Sorted (fun a b => issue_line_num a ≤ issue_line_num b)
      (sort_issues_by_line
        [[("file_path", PyVal.s "a"), ("line_num", PyVal.i 2)],
         [("file_path", PyVal.s "a"), ("line_num", PyVal.i 1)]]) :=
  (reporter_groups_sorts
    [[("file_path", PyVal.s "a"), ("line_num", PyVal.i 2)],
     [("file_path", PyVal.s "a"), ("line_num", PyVal.i 1)]] "a"
    [[("file_path", PyVal.s "a"), ("line_num", PyVal.i 2)],
     [("file_path", PyVal.s "a"), ("line_num", PyVal.i 1)]]).1 (by decide)
